import Mathlib

/-!
Verification development for the `ocs01-test-ts` contract-interaction client.

The client (TypeScript, `src/unnamed/part_000` plus the smaller test driver
`src/src/main.ts`) constructs, signs and submits contract-call transactions to
a remote ledger gateway over HTTP and polls for confirmation.  This file gives
a shallow embedding of its transaction-lifecycle core:

* the gateway is an oracle: a function from requests (or poll indices) to
  responses, where a response is either a delivered envelope or a transport
  error (an `axios` throw surfaced through `api_call`);
* the polling loop `wait_for_tx` is modelled with an explicit fuel argument,
  `none` meaning the loop has not terminated within that much fuel;
* the ed25519 primitive lives in the `@noble/ed25519` library, outside this
  repository, and is modelled abstractly (see `ed_sign`);
* `Date.now()/1000` (a float in the source) is modelled as an integral number
  of seconds passed in as a parameter: no claim here depends on fractional
  timestamps, only on the timestamp flowing unchanged from construction to
  signing to submission.
-/

/-- A transport-level failure: `axios` threw and `api_call` re-threw.
`body` is the remote response body when one was present (`err.response.data`). -/
structure ApiError where
  body : String
deriving DecidableEq, Repr

/-- The error message built by `api_call` in `src/unnamed/part_000` line 78:
`new Error(` followed by the template string `api error: ` with the response
body passed as the SECOND argument of the `Error` constructor.  In JavaScript
that second argument is the `options` object, not part of the message, so the
message is the bare prefix and the body is dropped. -/
def api_error_message_part000 (_body : String) : String :=
  "api error: "

/-- The error message built by `api_call` in `src/src/main.ts` line 49:
`new Error` of the template literal that interpolates `err.response.data`
into the message, so the body appears verbatim after the prefix. -/
def api_error_message_main (body : String) : String :=
  "api error: " ++ body

/-- A JSON value as far as the client inspects one: the `result` field of a
view-call envelope is used only through `typeof result === "string"`. -/
inductive JsonVal where
  | str (s : String)
  | num (n : Nat)
  | null
deriving DecidableEq, Repr

/-- The envelope returned by `POST /contract/call-view`. -/
structure ViewResp where
  status : String
  result : JsonVal
deriving DecidableEq, Repr

/-- Model of `view_call` (`src/unnamed/part_000` lines 103-116, identical in
`src/src/main.ts` lines 55-68), given a delivered envelope: returns the
result only when `status === "success"` and the result is a string,
otherwise `none`.  The function never throws on a delivered envelope. -/
def view_call (resp : ViewResp) : Option String :=
  if resp.status = "success" then
    match resp.result with
    | .str s => some s
    | _ => none
  else none

/-- Terminal outcome of the confirmation-polling loop: which of the two
`break`s in `wait_for_tx` fired (reported through the spinner as
"Transaction confirmed!" versus "Transaction not confirmed ..."). -/
inductive WaitOutcome where
  | confirmed
  | timedOut
deriving DecidableEq, Repr

/-- Model of `wait_for_tx` (`src/unnamed/part_000` lines 149-169).  The gateway oracle
`gw` gives the result of the poll with 0-based index `k`: either a transport
error (the `api_call` throw, uncaught by `wait_for_tx`) or the `status` string
of the delivered envelope.  `elapsed` is the loop counter (incremented at the
top of each iteration, before the poll); `fuel` bounds the modelled
iterations.  Returns `none` when the loop is still running after `fuel`
iterations, otherwise the outcome together with the final value of `elapsed`
(the number of polls issued); a transport error propagates immediately as
`Except.error`. -/
def wait_for_tx (gw : Nat → Except ApiError String) (max_wait_time : Nat) :
    Nat → Nat → Option (Except ApiError (WaitOutcome × Nat))
  | 0, _ => none
  | fuel + 1, elapsed =>
    match gw elapsed with
    | .error err => some (.error err)
    | .ok status =>
      if status = "confirmed" then
        some (.ok (.confirmed, elapsed + 1))
      else if max_wait_time ≠ 0 ∧ max_wait_time ≤ elapsed + 1 then
        some (.ok (.timedOut, elapsed + 1))
      else
        wait_for_tx gw max_wait_time fuel (elapsed + 1)

/-- The mock gateway of the polling property: `"pending"` for the first
`N - 1` polls, `"confirmed"` from the `N`-th poll on (poll number is 1-based,
the oracle index 0-based), every request delivered. -/
def gw_pending_then_confirmed (N : Nat) : Nat → Except ApiError String :=
  fun k => .ok (if k + 1 < N then "pending" else "confirmed")

/-- A gateway whose every poll fails at the transport level. -/
def gw_always_error : Nat → Except ApiError String :=
  fun _ => .error { body := "ECONNREFUSED" }

/-- A gateway that always delivers `"pending"`. -/
def gw_always_pending : Nat → Except ApiError String :=
  fun _ => .ok "pending"

/-- The `Tx` interface (`src/unnamed/part_000` lines 56-63).  `timestamp` is
integral seconds here (see the header note). -/
structure Tx where
  «from» : String
  to_ : String
  amount : String
  nonce : Nat
  ou : String
  timestamp : Nat
deriving DecidableEq, Repr

/-- Hexadecimal digit character, lower case, as produced by JavaScript
string escapes. -/
def hexDigitChar (n : Nat) : Char :=
  if n < 10 then Char.ofNat (48 + n) else Char.ofNat (87 + n)

/-- The `JSON.stringify` escape of a control character (code point below 32):
the shorthand escapes where they exist, `\u00XX` otherwise. -/
def jsonControlEscape (c : Char) : List Char :=
  if c = Char.ofNat 10 then ['\\', 'n']
  else if c = Char.ofNat 9 then ['\\', 't']
  else if c = Char.ofNat 13 then ['\\', 'r']
  else if c = Char.ofNat 8 then ['\\', 'b']
  else if c = Char.ofNat 12 then ['\\', 'f']
  else ['\\', 'u', '0', '0', hexDigitChar (c.toNat / 16), hexDigitChar (c.toNat % 16)]

/-- The `JSON.stringify` escape of one character inside a string literal. -/
def jsonEscapeChar (c : Char) : List Char :=
  if c = '\"' then ['\\', '\"']
  else if c = '\\' then ['\\', '\\']
  else if c.toNat < 32 then jsonControlEscape c
  else [c]

/-- The `JSON.stringify` body of a string value (without the surrounding
quotes, which the serializer below places explicitly). -/
def jsonEscape (s : String) : List Char :=
  s.data.flatMap jsonEscapeChar

/-- Decimal digit characters of a natural number, most significant first:
the `JSON.stringify` rendering of a non-negative integral number. -/
def natChars (n : Nat) : List Char :=
  if n = 0 then ['0']
  else ((Nat.digits 10 n).reverse).map (fun d => Char.ofNat (48 + d))

/-- The literal pieces of `JSON.stringify` applied to the six-field object
built in `sign_tx` (`src/unnamed/part_000` lines 85-92), insertion order
`from, to_, amount, nonce, ou, timestamp`, no whitespace. -/
def lit_open_from : List Char := ['\x7b', '\"', 'f', 'r', 'o', 'm', '\"', ':', '\"']

/-- Literal between the `from` and `to_` values: closing quote, comma, key. -/
def lit_to : List Char := ['\"', ',', '\"', 't', 'o', '_', '\"', ':', '\"']

/-- Literal between the `to_` and `amount` values. -/
def lit_amount : List Char := ['\"', ',', '\"', 'a', 'm', 'o', 'u', 'n', 't', '\"', ':', '\"']

/-- Literal between the `amount` and `nonce` values (nonce is a bare number,
so no opening quote at the end). -/
def lit_nonce : List Char := ['\"', ',', '\"', 'n', 'o', 'n', 'c', 'e', '\"', ':']

/-- Literal between the `nonce` and `ou` values (after a bare number, so no
closing quote at the start). -/
def lit_ou : List Char := [',', '\"', 'o', 'u', '\"', ':', '\"']

/-- Literal between the `ou` and `timestamp` values. -/
def lit_timestamp : List Char := ['\"', ',', '\"', 't', 'i', 'm', 'e', 's', 't', 'a', 'm', 'p', '\"', ':']

/-- Closing brace after the bare `timestamp` number. -/
def lit_close : List Char := ['\x7d']

/-- The blob signed by `sign_tx` (`src/unnamed/part_000` lines 85-92):
`JSON.stringify` of the object holding exactly the six transaction fields in
insertion order `from, to_, amount, nonce, ou, timestamp`. -/
def serialize_tx (tx : Tx) : List Char :=
  lit_open_from ++ jsonEscape tx.«from» ++ lit_to ++ jsonEscape tx.to_ ++
  lit_amount ++ jsonEscape tx.amount ++ lit_nonce ++ natChars tx.nonce ++
  lit_ou ++ jsonEscape tx.ou ++ lit_timestamp ++ natChars tx.timestamp ++ lit_close

/-- Signing failure: the `@noble/ed25519` primitive rejects key material of
the wrong length (the spec's `InvalidKeyError`). -/
inductive SignError where
  | invalidKey
deriving DecidableEq, Repr

/-- Modelled from the spec: the raw ed25519 signature produced by the
`@noble/ed25519` library, which is not part of this repository.  The spec
(§4.1) requires a deterministic scheme whose verification, under the public
key derived from the signing key, accepts exactly the signature produced
over the same message; the model realises that contract by recording the
signed message and the signer's public key.  (The base64 transport encoding
of the raw signature is a fixed injective encoding and is omitted.) -/
structure Sig where
  msg : List Char
  pub : List Nat
deriving DecidableEq, Repr

/-- Modelled from the spec: deterministic public-key derivation of the
`@noble/ed25519` library (spec §4.1, `publicKey(privateKey) -> bytes`);
an arbitrary pure byte-level function stands in for the curve arithmetic. -/
def ed_pubkey_bytes (sk : List Nat) : List Nat :=
  sk.map (fun b => (b + 7) % 256)

/-- Modelled from the spec: `ed.getPublicKey`, failing on key material that
is not the scheme's expected 32-byte length. -/
def ed_getPublicKey (sk : List Nat) : Except SignError (List Nat) :=
  if sk.length = 32 then .ok (ed_pubkey_bytes sk) else .error .invalidKey

/-- Modelled from the spec: `ed.sign msg sk`, deterministic, failing on key
material that is not 32 bytes long. -/
def ed_sign (msg : List Char) (sk : List Nat) : Except SignError Sig :=
  if sk.length = 32 then .ok { msg := msg, pub := ed_pubkey_bytes sk }
  else .error .invalidKey

/-- Modelled from the spec: ed25519 verification; accepts exactly the
signature produced over the same message under the matching public key. -/
def ed_verify (pub : List Nat) (msg : List Char) (sig : Sig) : Bool :=
  sig.pub == pub && sig.msg == msg

/-- Model of `sign_tx` (`src/unnamed/part_000` lines 84-96): serialize the six
transaction fields, sign the resulting bytes with the private key. -/
def sign_tx (sk : List Nat) (tx : Tx) : Except SignError Sig :=
  ed_sign (serialize_tx tx) sk

/-- The body POSTed to `/call-contract` (`src/unnamed/part_000`
lines 135-144). -/
structure SubmitPayload where
  contract : String
  method : String
  params : List String
  caller : String
  nonce : Nat
  timestamp : Nat
  signature : Sig
  public_key : List Nat
deriving DecidableEq, Repr

/-- The success envelope of `POST /call-contract`. -/
structure SubmitResp where
  tx_hash : String
deriving DecidableEq, Repr

/-- A failure of `call_contract`: either signing failed (before any network
traffic) or the gateway call failed. -/
inductive CallError where
  | sign (e : SignError)
  | api (e : ApiError)
deriving DecidableEq, Repr

/-- The `TxData` object built by `call_contract` (`src/unnamed/part_000`
lines 119-129): `from` the caller address, `to_` the contract, amount `"0"`,
nonce the fetched nonce plus one, `ou` the fixed marker `"1"`, timestamp the
current time. -/
def call_contract_tx (address : String) (nonce : Nat) (contractAddr : String)
    (timestamp : Nat) : Tx :=
  { «from» := address, to_ := contractAddr, amount := "0", nonce := nonce + 1,
    ou := "1", timestamp := timestamp }

/-- Model of `call_contract` (`src/unnamed/part_000` lines 118-147).  `gw` is the
gateway oracle for `POST /call-contract`; `timestamp` stands for
`Date.now()/1000`.  Returns the result (`tx_hash` on success) together with
the list of requests actually issued, in order: the source signs first and
POSTs exactly once afterwards, with no retry, so a signing failure issues no
request at all. -/
def call_contract (gw : SubmitPayload → Except ApiError SubmitResp)
    (sk : List Nat) (address : String) (nonce : Nat) (contractAddr : String)
    (method : String) (params : List String) (timestamp : Nat) :
    Except CallError String × List SubmitPayload :=
  let TxData := call_contract_tx address nonce contractAddr timestamp
  match sign_tx sk TxData with
  | .error e => (.error (.sign e), [])
  | .ok signature =>
    match ed_getPublicKey sk with
    | .error e => (.error (.sign e), [])
    | .ok pk =>
      let payload : SubmitPayload :=
        { contract := contractAddr, method := method, params := params,
          caller := address, nonce := TxData.nonce,
          timestamp := TxData.timestamp, signature := signature,
          public_key := pk }
      match gw payload with
      | .error e => (.error (.api e), [payload])
      | .ok r => (.ok r.tx_hash, [payload])

/-- The single payload that `call_contract` POSTs when signing succeeds,
spelled out: its `nonce` and `timestamp` are the `TxData` fields and its
signature is the one computed over the serialized `TxData`. -/
def call_contract_payload (sk : List Nat) (address : String) (nonce : Nat)
    (contractAddr method : String) (params : List String) (timestamp : Nat) :
    SubmitPayload :=
  { contract := contractAddr, method := method, params := params,
    caller := address, nonce := nonce + 1, timestamp := timestamp,
    signature := { msg := serialize_tx (call_contract_tx address nonce contractAddr timestamp),
                   pub := ed_pubkey_bytes sk },
    public_key := ed_pubkey_bytes sk }

/-- A string that `JSON.stringify` copies verbatim between its quotes: no
double quote, no backslash, no control character.  (Addresses, method names
and decimal amounts all satisfy this.) -/
def jsonSafeStr (s : String) : Prop :=
  ∀ c ∈ s.data, c ≠ '\"' ∧ c ≠ '\\' ∧ 32 ≤ c.toNat

instance (s : String) : Decidable (jsonSafeStr s) :=
  List.decidableBAll _ s.data

/-- All four string fields of a transaction are escape-free. -/
def jsonSafe (tx : Tx) : Prop :=
  jsonSafeStr tx.«from» ∧ jsonSafeStr tx.to_ ∧ jsonSafeStr tx.amount ∧ jsonSafeStr tx.ou

instance (tx : Tx) : Decidable (jsonSafe tx) :=
  inferInstanceAs (Decidable (_ ∧ _ ∧ _ ∧ _))

/-- The spec's end-to-end example transaction (spec section 8). -/
def tx_example : Tx :=
  { «from» := "A", to_ := "B", amount := "0", nonce := 5, ou := "1",
    timestamp := 1700000000 }

/-- The example transaction with the next nonce. -/
def tx_example_next : Tx :=
  { «from» := "A", to_ := "B", amount := "0", nonce := 6, ou := "1",
    timestamp := 1700000000 }

lemma call_contract_eq (gw : SubmitPayload → Except ApiError SubmitResp)
    (sk : List Nat) (address : String) (nonce : Nat) (contractAddr method : String)
    (params : List String) (timestamp : Nat) :
    call_contract gw sk address nonce contractAddr method params timestamp =
      if sk.length = 32 then
        match gw (call_contract_payload sk address nonce contractAddr method params timestamp) with
        | .error e => (.error (.api e),
            [call_contract_payload sk address nonce contractAddr method params timestamp])
        | .ok r => (.ok r.tx_hash,
            [call_contract_payload sk address nonce contractAddr method params timestamp])
      else (.error (.sign .invalidKey), []) := by
  by_cases h : sk.length = 32 <;>
    simp [call_contract, sign_tx, ed_sign, ed_getPublicKey, call_contract_payload,
      call_contract_tx, h]

/-- C1: `call_contract` with fetched nonce `nonce` builds its transaction
with nonce `nonce + 1`, amount `"0"`, the fixed operation-unit marker `"1"`
and the construction-time timestamp, and within one call it submits at most
one request, every submitted payload carrying that single nonce `nonce + 1`. -/
theorem call_contract_builds_nonce_amount_ou
    (gw : SubmitPayload → Except ApiError SubmitResp) (sk : List Nat)
    (address : String) (nonce : Nat) (contractAddr method : String)
    (params : List String) (timestamp : Nat) :
    (call_contract_tx address nonce contractAddr timestamp).nonce = nonce + 1 ∧
    (call_contract_tx address nonce contractAddr timestamp).amount = "0" ∧
    (call_contract_tx address nonce contractAddr timestamp).ou = "1" ∧
    (call_contract_tx address nonce contractAddr timestamp).timestamp = timestamp ∧
    (call_contract gw sk address nonce contractAddr method params timestamp).2.length ≤ 1 ∧
    ((call_contract gw sk address nonce contractAddr method params timestamp).2.map
        (fun pl => pl.nonce)).all (fun m => m == nonce + 1) = true := by
  refine ⟨rfl, rfl, rfl, rfl, ?_, ?_⟩ <;>
  · rw [call_contract_eq]
    split
    · cases gw (call_contract_payload sk address nonce contractAddr method params timestamp) <;>
        simp [call_contract_payload]
    · simp

/-- C4: on a delivered envelope, `view_call` returns the result exactly when
the status is `"success"` and the result is textual; on an `"error"` status
or a non-textual result it returns `none` rather than throwing. -/
theorem view_call_success_or_absent (resp : ViewResp) :
    (∀ s, resp.status = "success" → resp.result = .str s → view_call resp = some s) ∧
    (resp.status = "error" → view_call resp = none) ∧
    ((∀ s, resp.result ≠ JsonVal.str s) → view_call resp = none) := by
  refine ⟨?_, ?_, ?_⟩
  · intro s hst hres
    simp [view_call, hst, hres]
  · intro hst
    simp [view_call, hst]
  · intro hres
    unfold view_call
    split
    · cases h : resp.result with
      | str s => exact absurd h (hres s)
      | num n => simp [h]
      | null => simp [h]
    · rfl

theorem view_call_success_or_absent_witness :
    view_call { status := "success", result := .str "42" } = some "42" ∧
    view_call { status := "error", result := .str "42" } = none ∧
    view_call { status := "success", result := .num 7 } = none :=
  ⟨(view_call_success_or_absent _).1 "42" rfl rfl,
   (view_call_success_or_absent _).2.1 rfl,
   (view_call_success_or_absent _).2.2 (fun s h => by cases h)⟩

/-- C5 counterexample: with an attempt budget of 3 and a gateway whose first
poll fails at the transport level, `wait_for_tx` surfaces the transport error
at once — the failing poll is not absorbed as a non-confirming attempt and
the run does not end in `timedOut`. -/
theorem wait_for_tx_error_aborts_cex :
    wait_for_tx gw_always_error 3 10 0 = some (.error { body := "ECONNREFUSED" }) ∧
    ∀ n, wait_for_tx gw_always_error 3 10 0 ≠ some (.ok (.timedOut, n)) := by
  have h : wait_for_tx gw_always_error 3 10 0 = some (.error { body := "ECONNREFUSED" }) := rfl
  refine ⟨h, ?_⟩
  intro n hn
  rw [h] at hn
  simp at hn

/-- C5 amended: `wait_for_tx` has no handler around its poll, so the first
poll whose transport fails makes the whole wait abort with that error
immediately, whatever the remaining attempt budget. -/
theorem wait_for_tx_error_propagates (gw : Nat → Except ApiError String)
    (mw fuel e : Nat) (err : ApiError) (h : gw e = .error err) :
    wait_for_tx gw mw (fuel + 1) e = some (.error err) := by
  simp [wait_for_tx, h]

theorem wait_for_tx_error_propagates_witness :
    wait_for_tx gw_always_error 3 (9 + 1) 0 =
      some (.error { body := "ECONNREFUSED" }) :=
  wait_for_tx_error_propagates gw_always_error 3 9 0 _ rfl

/-- C6: the remote's rejection body is dropped from the error message built
by `api_call` in `src/unnamed/part_000` (the body is passed as the `Error`
constructor's second argument, not interpolated), unlike the message built by
the same function in `src/src/main.ts`; and `call_contract` never retries —
it issues at most one submission per call. -/
theorem api_error_message_drops_body :
    api_error_message_part000 "insufficient balance" = "api error: " ∧
    api_error_message_main "insufficient balance" = "api error: insufficient balance" ∧
    api_error_message_part000 "insufficient balance" ≠
      api_error_message_main "insufficient balance" ∧
    ∀ gw sk address nonce contractAddr method params timestamp,
      (call_contract gw sk address nonce contractAddr method params timestamp).2.length ≤ 1 := by
  refine ⟨rfl, rfl, by decide, ?_⟩
  intro gw sk address nonce contractAddr method params timestamp
  rw [call_contract_eq]
  split
  · cases gw (call_contract_payload sk address nonce contractAddr method params timestamp) <;> simp
  · simp

/-- C8: a private key that is not the scheme's 32-byte length makes signing
fail with `InvalidKeyError`, and `call_contract` then aborts with that error
having issued no network request at all. -/
theorem sign_invalid_key_no_network
    (gw : SubmitPayload → Except ApiError SubmitResp) (sk : List Nat)
    (address : String) (nonce : Nat) (contractAddr method : String)
    (params : List String) (timestamp : Nat) (h : sk.length ≠ 32) :
    sign_tx sk (call_contract_tx address nonce contractAddr timestamp) =
      .error .invalidKey ∧
    call_contract gw sk address nonce contractAddr method params timestamp =
      (.error (.sign .invalidKey), []) := by
  constructor
  · simp [sign_tx, ed_sign, h]
  · rw [call_contract_eq]
    simp [h]

theorem sign_invalid_key_no_network_witness :
    sign_tx [] (call_contract_tx "A" 5 "C" 1700000000) = .error .invalidKey ∧
    call_contract (fun _ => .ok { tx_hash := "abc123" }) [] "A" 5 "C" "m" [] 1700000000 =
      (.error (.sign .invalidKey), []) :=
  sign_invalid_key_no_network (fun _ => .ok { tx_hash := "abc123" }) [] "A" 5 "C" "m" []
    1700000000 (by decide)

/-- C10: with valid key material, `call_contract` submits exactly one
payload, and that payload's nonce and timestamp are exactly the nonce and
timestamp of the `TxData` over which the signature was computed — the
payload's signature is the one over the serialization of that same
transaction. -/
theorem call_contract_payload_matches_signed_tx
    (gw : SubmitPayload → Except ApiError SubmitResp) (sk : List Nat)
    (address : String) (nonce : Nat) (contractAddr method : String)
    (params : List String) (timestamp : Nat) (h : sk.length = 32) :
    (call_contract gw sk address nonce contractAddr method params timestamp).2 =
      [call_contract_payload sk address nonce contractAddr method params timestamp] ∧
    (call_contract_payload sk address nonce contractAddr method params timestamp).nonce =
      (call_contract_tx address nonce contractAddr timestamp).nonce ∧
    (call_contract_payload sk address nonce contractAddr method params timestamp).timestamp =
      (call_contract_tx address nonce contractAddr timestamp).timestamp ∧
    sign_tx sk (call_contract_tx address nonce contractAddr timestamp) =
      .ok (call_contract_payload sk address nonce contractAddr method params timestamp).signature := by
  refine ⟨?_, rfl, rfl, ?_⟩
  · rw [call_contract_eq]
    rw [if_pos h]
    cases gw (call_contract_payload sk address nonce contractAddr method params timestamp) <;> simp
  · simp [sign_tx, ed_sign, h, call_contract_payload]

theorem call_contract_payload_matches_signed_tx_witness :
    (call_contract (fun _ => .ok { tx_hash := "abc123" }) (List.replicate 32 0) "A" 5 "C" "m" []
        1700000000).2 =
      [call_contract_payload (List.replicate 32 0) "A" 5 "C" "m" [] 1700000000] ∧
    (call_contract_payload (List.replicate 32 0) "A" 5 "C" "m" [] 1700000000).nonce =
      (call_contract_tx "A" 5 "C" 1700000000).nonce ∧
    (call_contract_payload (List.replicate 32 0) "A" 5 "C" "m" [] 1700000000).timestamp =
      (call_contract_tx "A" 5 "C" 1700000000).timestamp ∧
    sign_tx (List.replicate 32 0) (call_contract_tx "A" 5 "C" 1700000000) =
      .ok (call_contract_payload (List.replicate 32 0) "A" 5 "C" "m" [] 1700000000).signature :=
  call_contract_payload_matches_signed_tx (fun _ => .ok { tx_hash := "abc123" })
    (List.replicate 32 0) "A" 5 "C" "m" [] 1700000000 (by decide)

/-- C7: with a valid 32-byte key, signing is deterministic — any transaction
agreeing with `tx` on all six fields yields the same signature — and the
produced signature verifies under the public key derived from the same
private key over the re-serialized transaction. -/
theorem sign_tx_deterministic_verifies (sk : List Nat) (tx tx' : Tx)
    (h : sk.length = 32)
    (hf : tx'.«from» = tx.«from») (ht : tx'.to_ = tx.to_)
    (ha : tx'.amount = tx.amount) (hn : tx'.nonce = tx.nonce)
    (ho : tx'.ou = tx.ou) (hts : tx'.timestamp = tx.timestamp) :
    sign_tx sk tx' = sign_tx sk tx ∧
    ∃ sig, sign_tx sk tx = .ok sig ∧
      ed_verify (ed_pubkey_bytes sk) (serialize_tx tx) sig = true := by
  have htx : tx' = tx := by
    cases tx; cases tx'; simp_all
  rw [htx]
  exact ⟨rfl, ⟨{ msg := serialize_tx tx, pub := ed_pubkey_bytes sk },
    by simp [sign_tx, ed_sign, h], by simp [ed_verify]⟩⟩

theorem sign_tx_deterministic_verifies_witness :
    sign_tx (List.replicate 32 0)
        { «from» := "A", to_ := "B", amount := "0", nonce := 5, ou := "1",
          timestamp := 1700000000 } =
      sign_tx (List.replicate 32 0)
        { «from» := "A", to_ := "B", amount := "0", nonce := 5, ou := "1",
          timestamp := 1700000000 } ∧
    ∃ sig,
      sign_tx (List.replicate 32 0)
          { «from» := "A", to_ := "B", amount := "0", nonce := 5, ou := "1",
            timestamp := 1700000000 } = .ok sig ∧
      ed_verify (ed_pubkey_bytes (List.replicate 32 0))
          (serialize_tx
            { «from» := "A", to_ := "B", amount := "0", nonce := 5, ou := "1",
              timestamp := 1700000000 }) sig = true :=
  sign_tx_deterministic_verifies (List.replicate 32 0) _ _ (by decide) rfl rfl rfl rfl rfl rfl

lemma wait_pc_confirm (N mw : Nat) :
    ∀ fuel e, e < N → N ≤ e + fuel → (mw = 0 ∨ N ≤ mw) →
      wait_for_tx (gw_pending_then_confirmed N) mw fuel e =
        some (.ok (.confirmed, N)) := by
  intro fuel
  induction fuel with
  | zero => intro e h1 h2 _; omega
  | succ fuel ih =>
    intro e h1 h2 hmw
    rcases Nat.lt_or_ge (e + 1) N with hlt | hge
    · have hgw : gw_pending_then_confirmed N e = .ok "pending" := by
        unfold gw_pending_then_confirmed
        rw [if_pos hlt]
      have hto : ¬ (mw ≠ 0 ∧ mw ≤ e + 1) := by omega
      rw [wait_for_tx, hgw]
      simp only []
      rw [if_neg (by decide : ¬ ("pending" = "confirmed")), if_neg hto]
      exact ih (e + 1) hlt (by omega) hmw
    · have heq : e + 1 = N := by omega
      have hgw : gw_pending_then_confirmed N e = .ok "confirmed" := by
        unfold gw_pending_then_confirmed
        rw [if_neg (by omega)]
      rw [wait_for_tx, hgw]
      simp [heq]

lemma wait_pc_timeout (N mw : Nat) :
    ∀ fuel e, 1 ≤ mw → mw < N → e < mw → mw ≤ e + fuel →
      wait_for_tx (gw_pending_then_confirmed N) mw fuel e =
        some (.ok (.timedOut, mw)) := by
  intro fuel
  induction fuel with
  | zero => intro e h1 h2 h3 h4; omega
  | succ fuel ih =>
    intro e h1 h2 h3 h4
    have hgw : gw_pending_then_confirmed N e = .ok "pending" := by
      unfold gw_pending_then_confirmed
      rw [if_pos (by omega)]
    rw [wait_for_tx, hgw]
    simp only []
    rw [if_neg (by decide : ¬ ("pending" = "confirmed"))]
    rcases Nat.lt_or_ge (e + 1) mw with hlt | hge
    · rw [if_neg (by omega)]
      exact ih (e + 1) h1 h2 hlt (by omega)
    · have heq : e + 1 = mw := by omega
      rw [if_pos (by omega), heq]

/-- C2: against a gateway that answers `"pending"` for the first `N - 1`
polls and `"confirmed"` on the `N`-th, `wait_for_tx` with attempt budget
`≥ N` ends confirmed after exactly `N` polls, and with a budget `< N` (and
`≥ 1`) ends timed out after exactly the budgeted number of polls — it never
issues more polls than the budget. -/
theorem wait_for_tx_poll_budget (N mA fuel : Nat) (hN : 1 ≤ N) :
    (N ≤ mA → N ≤ fuel →
      wait_for_tx (gw_pending_then_confirmed N) mA fuel 0 =
        some (.ok (.confirmed, N))) ∧
    (1 ≤ mA → mA < N → mA ≤ fuel →
      wait_for_tx (gw_pending_then_confirmed N) mA fuel 0 =
        some (.ok (.timedOut, mA))) := by
  constructor
  · intro hna hf
    exact wait_pc_confirm N mA fuel 0 (by omega) (by omega) (Or.inr hna)
  · intro h1 h2 hf
    exact wait_pc_timeout N mA fuel 0 h1 h2 (by omega) (by omega)

theorem wait_for_tx_poll_budget_witness :
    wait_for_tx (gw_pending_then_confirmed 3) 5 10 0 =
      some (.ok (.confirmed, 3)) ∧
    wait_for_tx (gw_pending_then_confirmed 3) 2 10 0 =
      some (.ok (.timedOut, 2)) :=
  ⟨(wait_for_tx_poll_budget 3 5 10 (by decide)).1 (by decide) (by decide),
   (wait_for_tx_poll_budget 3 2 10 (by decide)).2 (by decide) (by decide) (by decide)⟩

/-- C9: with `max_wait_time = 0` the timeout test `max_wait_time && ...` is
falsy on every iteration, so against a gateway that keeps delivering
non-`"confirmed"` envelopes the loop never terminates (no fuel bound makes it
stop), while a `"confirmed"` answer on poll `N` still stops it there, for
any `N`, however far beyond any would-be budget. -/
theorem wait_for_tx_zero_budget_unbounded :
    (∀ gw : Nat → Except ApiError String,
      (∀ k, ∃ s, gw k = .ok s ∧ s ≠ "confirmed") →
      ∀ fuel e, wait_for_tx gw 0 fuel e = none) ∧
    (∀ N fuel, 1 ≤ N → N ≤ fuel →
      wait_for_tx (gw_pending_then_confirmed N) 0 fuel 0 =
        some (.ok (.confirmed, N))) := by
  constructor
  · intro gw hgw fuel
    induction fuel with
    | zero => intro e; rfl
    | succ fuel ih =>
      intro e
      obtain ⟨s, hs, hns⟩ := hgw e
      rw [wait_for_tx, hs]
      simp only []
      rw [if_neg hns, if_neg (by simp)]
      exact ih (e + 1)
  · intro N fuel h1 h2
    exact wait_pc_confirm N 0 fuel 0 (by omega) (by omega) (Or.inl rfl)

theorem wait_for_tx_zero_budget_unbounded_witness :
    wait_for_tx gw_always_pending 0 50 0 = none ∧
    wait_for_tx (gw_pending_then_confirmed 30) 0 50 0 =
      some (.ok (.confirmed, 30)) :=
  ⟨wait_for_tx_zero_budget_unbounded.1 gw_always_pending
      (fun _ => ⟨"pending", rfl, by decide⟩) 50 0,
   wait_for_tx_zero_budget_unbounded.2 30 50 (by decide) (by decide)⟩

lemma jsonEscapeChar_eq_of_safe (c : Char) (h : c ≠ '\"' ∧ c ≠ '\\' ∧ 32 ≤ c.toNat) :
    jsonEscapeChar c = [c] := by
  unfold jsonEscapeChar
  rw [if_neg h.1, if_neg h.2.1, if_neg (by omega)]

lemma flatMap_escape_eq_of_safe :
    ∀ l : List Char, (∀ c ∈ l, c ≠ '\"' ∧ c ≠ '\\' ∧ 32 ≤ c.toNat) →
      l.flatMap jsonEscapeChar = l := by
  intro l
  induction l with
  | nil => intro _; rfl
  | cons c l ih =>
    intro h
    rw [List.flatMap_cons, jsonEscapeChar_eq_of_safe c (h c (List.mem_cons_self c l)),
      ih (fun d hd => h d (List.mem_cons_of_mem c hd))]
    rfl

lemma jsonEscape_eq_of_safe (s : String) (h : jsonSafeStr s) : jsonEscape s = s.data :=
  flatMap_escape_eq_of_safe s.data h

lemma safe_not_mem_quote (s : String) (h : jsonSafeStr s) : '\"' ∉ s.data :=
  fun hc => (h _ hc).1 rfl

lemma append_sep_eq {sep : Char} :
    ∀ {xs ys t1 t2 : List Char}, sep ∉ xs → sep ∉ ys →
      xs ++ sep :: t1 = ys ++ sep :: t2 → xs = ys ∧ t1 = t2 := by
  intro xs
  induction xs with
  | nil =>
    intro ys t1 t2 _ hy h
    cases ys with
    | nil => exact ⟨rfl, by simpa using h⟩
    | cons y ys =>
      simp only [List.nil_append, List.cons_append, List.cons.injEq] at h
      obtain ⟨h1, -⟩ := h
      subst h1
      exact absurd (List.mem_cons_self _ _) hy
  | cons x xs ih =>
    intro ys t1 t2 hx hy h
    cases ys with
    | nil =>
      simp only [List.cons_append, List.nil_append, List.cons.injEq] at h
      obtain ⟨h1, -⟩ := h
      subst h1
      exact absurd (List.mem_cons_self _ _) hx
    | cons y ys =>
      simp only [List.cons_append, List.cons.injEq] at h
      obtain ⟨h1, h2⟩ := h
      subst h1
      have hx' : sep ∉ xs := fun hm => hx (List.mem_cons_of_mem _ hm)
      have hy' : sep ∉ ys := fun hm => hy (List.mem_cons_of_mem _ hm)
      obtain ⟨he, ht⟩ := ih hx' hy' h2
      exact ⟨by rw [he], ht⟩

lemma digit_char_inj (d e : Nat) (hd : d < 10) (he : e < 10)
    (h : Char.ofNat (48 + d) = Char.ofNat (48 + e)) : d = e := by
  interval_cases d <;> interval_cases e <;> revert h <;> decide

lemma map_digit_char_inj :
    ∀ l1 l2 : List Nat, (∀ d ∈ l1, d < 10) → (∀ d ∈ l2, d < 10) →
      l1.map (fun d => Char.ofNat (48 + d)) = l2.map (fun d => Char.ofNat (48 + d)) →
      l1 = l2 := by
  intro l1
  induction l1 with
  | nil =>
    intro l2 _ _ h
    cases l2 with
    | nil => rfl
    | cons e l2 => simp at h
  | cons d l1 ih =>
    intro l2 h1 h2 h
    cases l2 with
    | nil => simp at h
    | cons e l2 =>
      simp only [List.map_cons, List.cons.injEq] at h
      obtain ⟨hde, hrest⟩ := h
      have hd := h1 d (List.mem_cons_self d l1)
      have he := h2 e (List.mem_cons_self e l2)
      rw [digit_char_inj d e hd he hde,
        ih l2 (fun a ha => h1 a (List.mem_cons_of_mem d ha))
          (fun a ha => h2 a (List.mem_cons_of_mem e ha)) hrest]

lemma natChars_toNat (n : Nat) : ∀ c ∈ natChars n, 48 ≤ c.toNat ∧ c.toNat ≤ 57 := by
  intro c hc
  unfold natChars at hc
  split at hc
  · simp only [List.mem_singleton] at hc
    subst hc
    decide
  · simp only [List.mem_map, List.mem_reverse] at hc
    obtain ⟨d, hd, rfl⟩ := hc
    have hlt : d < 10 := Nat.digits_lt_base (by norm_num) hd
    interval_cases d <;> decide

lemma natChars_not_mem_comma (n : Nat) : ',' ∉ natChars n := by
  intro h
  have := natChars_toNat n _ h
  revert this
  decide

lemma natChars_not_mem_brace (n : Nat) : '\x7d' ∉ natChars n := by
  intro h
  have := natChars_toNat n _ h
  revert this
  decide

lemma natChars_inj : ∀ m n : Nat, natChars m = natChars n → m = n := by
  have key : ∀ n : Nat, n ≠ 0 → natChars n = ['0'] → False := by
    intro n hn h
    unfold natChars at h
    rw [if_neg hn] at h
    rcases hrev : (Nat.digits 10 n).reverse with - | ⟨d, t⟩
    · rw [hrev] at h
      simp at h
    · rw [hrev] at h
      simp only [List.map_cons, List.cons.injEq] at h
      obtain ⟨hd0, ht⟩ := h
      have htnil : t = [] := List.map_eq_nil_iff.mp ht
      subst htnil
      have hdig : Nat.digits 10 n = [d] := by
        have := congrArg List.reverse hrev
        simpa using this
      have hdlt : d < 10 := Nat.digits_lt_base (by norm_num) (by rw [hdig]; exact List.mem_cons_self d [])
      have hd : d = 0 := digit_char_inj d 0 hdlt (by norm_num) (by simpa using hd0)
      subst hd
      have := Nat.ofDigits_digits 10 n
      rw [hdig] at this
      simp [Nat.ofDigits] at this
      exact hn this.symm
  intro m n h
  by_cases hm : m = 0 <;> by_cases hn : n = 0
  · rw [hm, hn]
  · subst hm
    exact absurd (key n hn (by rw [← h]; rfl)) not_false
  · subst hn
    exact absurd (key m hm (by rw [h]; rfl)) not_false
  · unfold natChars at h
    rw [if_neg hm, if_neg hn] at h
    have hrev := map_digit_char_inj _ _
      (fun d hd => Nat.digits_lt_base (by norm_num) (List.mem_reverse.mp hd))
      (fun d hd => Nat.digits_lt_base (by norm_num) (List.mem_reverse.mp hd)) h
    have hdig : Nat.digits 10 m = Nat.digits 10 n := by
      have := congrArg List.reverse hrev
      simpa using this
    have := congrArg (Nat.ofDigits 10) hdig
    rwa [Nat.ofDigits_digits, Nat.ofDigits_digits] at this

/-- C3: the blob signed by `sign_tx` is exactly the canonical serialization
of the six transaction fields in the fixed order
`from, to_, amount, nonce, ou, timestamp` with no whitespace: the signed
bytes are `serialize_tx`, and over escape-free fields the encoding and the
six field values determine each other — equal fields reproduce the same
bytes, and equal bytes force equal fields. -/
theorem sign_blob_canonical (tx1 tx2 : Tx) (h1 : jsonSafe tx1) (h2 : jsonSafe tx2) :
    (∀ sk sig, sign_tx sk tx1 = .ok sig → sig.msg = serialize_tx tx1) ∧
    (serialize_tx tx1 = serialize_tx tx2 ↔ tx1 = tx2) := by
  constructor
  · intro sk sig hs
    unfold sign_tx ed_sign at hs
    split at hs
    · cases hs
      rfl
    · cases hs
  constructor
  · intro h
    obtain ⟨hf1, ht1, ha1, ho1⟩ := h1
    obtain ⟨hf2, ht2, ha2, ho2⟩ := h2
    obtain ⟨f1, t1, a1, n1, o1, ts1⟩ := tx1
    obtain ⟨f2, t2, a2, n2, o2, ts2⟩ := tx2
    simp only [serialize_tx] at h
    rw [jsonEscape_eq_of_safe f1 hf1, jsonEscape_eq_of_safe t1 ht1,
      jsonEscape_eq_of_safe a1 ha1, jsonEscape_eq_of_safe o1 ho1,
      jsonEscape_eq_of_safe f2 hf2, jsonEscape_eq_of_safe t2 ht2,
      jsonEscape_eq_of_safe a2 ha2, jsonEscape_eq_of_safe o2 ho2] at h
    simp only [lit_open_from, lit_to, lit_amount, lit_nonce, lit_ou, lit_timestamp,
      lit_close, List.cons_append, List.nil_append, List.append_assoc] at h
    simp only [List.cons.injEq, eq_self_iff_true, true_and] at h
    obtain ⟨hf, h⟩ := append_sep_eq (safe_not_mem_quote f1 hf1) (safe_not_mem_quote f2 hf2) h
    simp only [List.cons.injEq, eq_self_iff_true, true_and] at h
    obtain ⟨ht, h⟩ := append_sep_eq (safe_not_mem_quote t1 ht1) (safe_not_mem_quote t2 ht2) h
    simp only [List.cons.injEq, eq_self_iff_true, true_and] at h
    obtain ⟨ha, h⟩ := append_sep_eq (safe_not_mem_quote a1 ha1) (safe_not_mem_quote a2 ha2) h
    simp only [List.cons.injEq, eq_self_iff_true, true_and] at h
    obtain ⟨hn, h⟩ := append_sep_eq (natChars_not_mem_comma n1) (natChars_not_mem_comma n2) h
    simp only [List.cons.injEq, eq_self_iff_true, true_and] at h
    obtain ⟨ho, h⟩ := append_sep_eq (safe_not_mem_quote o1 ho1) (safe_not_mem_quote o2 ho2) h
    simp only [List.cons.injEq, eq_self_iff_true, true_and] at h
    obtain ⟨hts, -⟩ := append_sep_eq (natChars_not_mem_brace ts1) (natChars_not_mem_brace ts2) h
    simp only [Tx.mk.injEq]
    exact ⟨congrArg String.mk hf, congrArg String.mk ht, congrArg String.mk ha,
      natChars_inj _ _ hn, congrArg String.mk ho, natChars_inj _ _ hts⟩
  · intro h
    rw [h]

theorem sign_blob_canonical_witness :
    (∀ sk sig, sign_tx sk tx_example = .ok sig → sig.msg = serialize_tx tx_example) ∧
    (serialize_tx tx_example = serialize_tx tx_example_next ↔
      tx_example = tx_example_next) :=
  sign_blob_canonical tx_example tx_example_next (by decide) (by decide)
